import Mathlib

/-!
Verification of the empower-task core against its source.

The embedding follows the repository:
* the SQL migration (tables `profiles`, `tasks`, `task_history`, the row-level
  security policies, and the `log_task_status_change` trigger),
* `EmployeeDetailsDialog.tsx` / `EmployeeDashboard` (`updateTaskStatus`,
  `getTaskStats`, `fetchTasks`),
* `ManagerDashboard.tsx` (`fetchTasks`, `getEmployeeProgress`,
  `getOnTimeCompletionRate`),
* `AddTaskDialog.tsx` (`handleSubmit`).

Timestamps and calendar dates are modelled as integers (the TSX compares them
through `new Date(...)`, i.e. numerically); nullable columns are `Option`.
-/

namespace ET

/-- Column `status` of table `tasks`: enum `task_status`. -/
inductive TaskStatus where
  | not_started
  | in_progress
  | finished
deriving DecidableEq, Repr

/-- Column `role` of table `profiles`: enum `user_role`. -/
inductive Role where
  | manager
  | employee
deriving DecidableEq, Repr

/-- A row of table `profiles` (columns the core logic reads). -/
structure Profile where
  id : Nat
  user_id : Nat
  username : String
  full_name : String
  role : Role
  is_active : Bool
deriving DecidableEq, Repr

/-- A row of table `tasks`. -/
structure Task where
  id : Nat
  title : String
  description : String
  assigned_to : Nat
  assigned_by : Nat
  status : TaskStatus
  start_date : Int
  deadline_date : Int
  completed_at : Option Int
  created_at : Int
deriving DecidableEq, Repr

/-- A row of table `task_history`. `old_status` is a nullable column. -/
structure HistoryEntry where
  task_id : Nat
  old_status : Option TaskStatus
  new_status : TaskStatus
  changed_by : Nat
  changed_at : Int
deriving DecidableEq, Repr

/-- The `BEFORE UPDATE` trigger `log_task_status_change` on `tasks`.
`oldRow` is `OLD`, `newRow` is the row proposed by the `UPDATE` statement,
`actor_profile` the profile id resolved from `auth.uid()`, `now` the server
time. When `OLD.status IS DISTINCT FROM NEW.status` it inserts a history row
(`old_status := OLD.status`, which is never SQL-null because `tasks.status`
is `NOT NULL`) and then forces `NEW.completed_at` to `now()` when the new
status is `finished` and to `NULL` otherwise. On a same-status update it
returns `NEW` untouched and inserts nothing. -/
def log_task_status_change (oldRow newRow : Task) (actor_profile : Nat)
    (now : Int) : Task × Option HistoryEntry :=
  if oldRow.status ≠ newRow.status then
    let entry : HistoryEntry :=
      { task_id := newRow.id
        old_status := some oldRow.status
        new_status := newRow.status
        changed_by := actor_profile
        changed_at := now }
    let adjusted : Task :=
      if newRow.status = TaskStatus.finished then
        { newRow with completed_at := some now }
      else
        { newRow with completed_at := none }
    (adjusted, some entry)
  else
    (newRow, none)

/-- Function `updateTaskStatus` as written (identically) in `EmployeeDetailsDialog.tsx`
and in the `EmployeeDashboard` component: the client issues an `UPDATE` that
sets `status := newStatus` and `completed_at` to the current time of the client clock when `newStatus = finished` and to `NULL` otherwise; the row then passes
through the `log_task_status_change` trigger before being stored.
`clientNow` is `new Date().toISOString()`, `serverNow` the database `now()`.
Returns the stored row and the history entry inserted by the trigger, if any. -/
def updateTaskStatus (t : Task) (newStatus : TaskStatus)
    (clientNow serverNow : Int) (actor_profile : Nat) :
    Task × Option HistoryEntry :=
  let payload : Task :=
    { t with
        status := newStatus
        completed_at :=
          if newStatus = TaskStatus.finished then some clientNow else none }
  log_task_status_change t payload actor_profile serverNow

/-- One call of `updateTaskStatus` in a sequence: the requested status, the
client clock, the server clock, and the acting profile id. -/
structure StatusUpdate where
  newStatus : TaskStatus
  clientNow : Int
  serverNow : Int
  actor_profile : Nat
deriving DecidableEq, Repr

/-- A sequence of `updateTaskStatus` calls against one stored task row,
threading the stored row through and collecting the history rows inserted by
the trigger, in order. -/
def runUpdates : Task → List StatusUpdate → Task × List HistoryEntry
  | t, [] => (t, [])
  | t, u :: us =>
    ((runUpdates
        (updateTaskStatus t u.newStatus u.clientNow u.serverNow
          u.actor_profile).1 us).1,
      (updateTaskStatus t u.newStatus u.clientNow u.serverNow
          u.actor_profile).2.toList
        ++ (runUpdates
            (updateTaskStatus t u.newStatus u.clientNow u.serverNow
              u.actor_profile).1 us).2)

/-- JS `Math.round` applied to the exact rational value of the quotient:
round half toward positive infinity, i.e. round-half-up to the nearest
integer. -/
def jsRound (q : ℚ) : ℤ := Int.floor (q + 1 / 2)

/-- The record returned by `getTaskStats` in `EmployeeDetailsDialog.tsx`
(the `EmployeeDashboard` component contains the identical function). -/
structure TaskStats where
  total : Nat
  completed : Nat
  inProgress : Nat
  notStarted : Nat
  onTimeRate : Int
  completionRate : Int
deriving DecidableEq, Repr

/-- The filter `task.status === finished && task.completed_at`: a stored
`completed_at` is a non-empty ISO string, so its JS truthiness is `isSome`. -/
def finished_with_ts (t : Task) : Bool :=
  decide (t.status = TaskStatus.finished) && t.completed_at.isSome

/-- The filter
`new Date(task.completed_at!) <= new Date(task.deadline_date)`, applied to
tasks already known to carry a `completed_at`. -/
def completed_on_time (t : Task) : Bool :=
  match t.completed_at with
  | some c => decide (c ≤ t.deadline_date)
  | none => false

/-- Function `getTaskStats` from `EmployeeDetailsDialog.tsx` (and, identically,
from the `EmployeeDashboard` component). -/
def getTaskStats (tasks : List Task) : TaskStats :=
  let total := tasks.length
  let completed :=
    (tasks.filter fun t => decide (t.status = TaskStatus.finished)).length
  let inProgress :=
    (tasks.filter fun t => decide (t.status = TaskStatus.in_progress)).length
  let notStarted :=
    (tasks.filter fun t => decide (t.status = TaskStatus.not_started)).length
  let completedTasks := tasks.filter finished_with_ts
  let onTimeTasks := completedTasks.filter completed_on_time
  let onTimeRate : Int :=
    if completedTasks.length > 0 then
      jsRound (((onTimeTasks.length : ℚ) / (completedTasks.length : ℚ)) * 100)
    else 0
  let completionRate : Int :=
    if total > 0 then jsRound (((completed : ℚ) / (total : ℚ)) * 100) else 0
  { total := total, completed := completed, inProgress := inProgress,
    notStarted := notStarted, onTimeRate := onTimeRate,
    completionRate := completionRate }

/-- The record returned by `getEmployeeProgress` in `ManagerDashboard.tsx`. -/
structure EmployeeProgress where
  total : Nat
  completed : Nat
  percentage : Int
deriving DecidableEq, Repr

/-- Function `getEmployeeProgress` from `ManagerDashboard.tsx`. -/
def getEmployeeProgress (tasks : List Task) (employeeId : Nat) :
    EmployeeProgress :=
  let employeeTasks := tasks.filter fun t => decide (t.assigned_to = employeeId)
  let completedTasks :=
    employeeTasks.filter fun t => decide (t.status = TaskStatus.finished)
  { total := employeeTasks.length
    completed := completedTasks.length
    percentage :=
      if employeeTasks.length > 0 then
        jsRound
          (((completedTasks.length : ℚ) / (employeeTasks.length : ℚ)) * 100)
      else 0 }

/-- Function `getOnTimeCompletionRate` from `ManagerDashboard.tsx`. -/
def getOnTimeCompletionRate (tasks : List Task) (employeeId : Nat) : Int :=
  let employeeTasks := tasks.filter fun t =>
    decide (t.assigned_to = employeeId) && finished_with_ts t
  let onTimeTasks := employeeTasks.filter completed_on_time
  if employeeTasks.length > 0 then
    jsRound (((onTimeTasks.length : ℚ) / (employeeTasks.length : ℚ)) * 100)
  else 0

/-- Completion-rate formula of the spec, stated from the words of the spec for
comparison with the source functions: round-half-up of
100 * count(status == finished) / count(tasks), and 0 on the empty set. -/
def completionRateSpec (tasks : List Task) : Int :=
  if tasks = [] then 0
  else
    jsRound (100 *
      ((tasks.filter fun t =>
          decide (t.status = TaskStatus.finished)).length : ℚ) /
      (tasks.length : ℚ))

/-- On-time-rate formula of the spec, stated from the words of the spec for
comparison with the source functions: round-half-up of
100 * count(finished and completed_at at or before deadline_date) /
count(finished and completed_at non-null), and 0 when no finished task has a
completion timestamp. -/
def onTimeRateSpec (tasks : List Task) : Int :=
  let denom := (tasks.filter fun t =>
    decide (t.status = TaskStatus.finished) && t.completed_at.isSome).length
  let numer := (tasks.filter fun t =>
    decide (t.status = TaskStatus.finished) && completed_on_time t).length
  if denom = 0 then 0 else jsRound (100 * (numer : ℚ) / (denom : ℚ))

/-- Ordering used by the `fetchTasks` of the manager dashboard:
`order(created_at, descending)`. -/
def created_desc (a b : Task) : Prop := b.created_at ≤ a.created_at

instance : DecidableRel created_desc :=
  fun a b => Int.decLe b.created_at a.created_at

instance : IsTotal Task created_desc :=
  ⟨fun a b => Int.le_total b.created_at a.created_at⟩

instance : IsTrans Task created_desc :=
  ⟨fun _ _ _ hab hbc => le_trans hbc hab⟩

/-- Ordering used by the `fetchTasks` of the employee dashboard: `order(deadline_date)`,
ascending by default. -/
def deadline_asc (a b : Task) : Prop := a.deadline_date ≤ b.deadline_date

instance : DecidableRel deadline_asc :=
  fun a b => Int.decLe a.deadline_date b.deadline_date

instance : IsTotal Task deadline_asc :=
  ⟨fun a b => Int.le_total a.deadline_date b.deadline_date⟩

instance : IsTrans Task deadline_asc :=
  ⟨fun _ _ _ hab hbc => le_trans hab hbc⟩

/-- Function `fetchTasks` of `ManagerDashboard.tsx`: all rows of `tasks`, ordered by
`created_at` descending. The stored rows are modelled as a list; the `ORDER
BY` as a sort of that list. -/
def fetchTasksManager (db : List Task) : List Task :=
  List.insertionSort created_desc db

/-- Function `fetchTasks` of the `EmployeeDashboard` component: rows with
`assigned_to = profile.id`, ordered by `deadline_date` ascending. -/
def fetchTasksEmployee (db : List Task) (profileId : Nat) : List Task :=
  List.insertionSort deadline_asc
    (db.filter fun t => decide (t.assigned_to = profileId))

/-- Clause `EXISTS (SELECT 1 FROM profiles WHERE user_id = auth.uid() AND
role = manager)`, the manager test of the RLS policies. -/
def is_manager_uid (profiles : List Profile) (uid : Nat) : Bool :=
  profiles.any fun p =>
    decide (p.user_id = uid) && decide (p.role = Role.manager)

/-- Subquery `(SELECT id FROM profiles WHERE user_id = auth.uid())`: scalar,
`none` (SQL NULL) when no profile row matches. -/
def profile_id_of_uid (profiles : List Profile) (uid : Nat) : Option Nat :=
  (profiles.find? fun p => decide (p.user_id = uid)).map Profile.id

/-- The `USING` expression of the RLS policy "Managers can update tasks or
employees can update their own status" on `tasks`, evaluated on one row.
An SQL equality against a NULL subquery result is not true, hence the
`Option`-level comparison. -/
def tasks_update_using (profiles : List Profile) (uid : Nat) (row : Task) :
    Bool :=
  is_manager_uid profiles uid ||
    decide (some row.assigned_to = profile_id_of_uid profiles uid)

/-- Whether an `UPDATE` turning `oldRow` into `newRow` passes that policy.
The policy declares no `WITH CHECK`, so PostgreSQL applies the `USING`
expression both to the existing row and to the updated row; no condition on
which columns change exists anywhere in the policy. -/
def tasks_update_allowed (profiles : List Profile) (uid : Nat)
    (oldRow newRow : Task) : Bool :=
  tasks_update_using profiles uid oldRow &&
    tasks_update_using profiles uid newRow

/-- The row sent by the `tasks` insert in `handleSubmit` of
`AddTaskDialog.tsx`. The payload names no `id`, `completed_at`, `created_at`
or `updated_at`; the database fills those with their column defaults. -/
structure TaskInsert where
  title : String
  description : String
  assigned_to : Nat
  assigned_by : Nat
  start_date : Int
  deadline_date : Int
  status : TaskStatus
deriving DecidableEq, Repr

/-- The decision logic of `handleSubmit` in `AddTaskDialog.tsx`. Unfilled
form fields are the empty string (JS falsy), modelled as `none` for the
select / date fields. The first guard rejects when any required field is
missing, the second when `new Date(start_date) > new Date(deadline_date)`;
otherwise the insert is issued, with status `not_started` fixed by the
code. `assigner` is `profile?.id` of the logged-in manager. `none` means no
insert is attempted (the toast-and-return paths). -/
def handleSubmit (title description : String) (assigned_to : Option Nat)
    (start_date deadline_date : Option Int) (assigner : Nat) :
    Option TaskInsert :=
  match assigned_to, start_date, deadline_date with
  | some a, some s, some d =>
    if title = "" then none
    else if s > d then none
    else
      some { title := title, description := description, assigned_to := a,
             assigned_by := assigner, start_date := s, deadline_date := d,
             status := TaskStatus.not_started }
  | _, _, _ => none

/-- Materialisation of an accepted insert by the `tasks` table: the database
assigns the primary key and `created_at`, and fills the omitted
`completed_at` column with its default, SQL NULL. -/
def insertTask (p : TaskInsert) (newId : Nat) (now : Int) : Task :=
  { id := newId, title := p.title, description := p.description,
    assigned_to := p.assigned_to, assigned_by := p.assigned_by,
    status := p.status, start_date := p.start_date,
    deadline_date := p.deadline_date, completed_at := none,
    created_at := now }

/-- Whether `pid` is the id of an active profile with role `employee` — the
condition the spec requires `createTask` to validate on the assignee. -/
def resolves_active_employee (profiles : List Profile) (pid : Nat) : Bool :=
  profiles.any fun p =>
    decide (p.id = pid) && decide (p.role = Role.employee) && p.is_active

/-- Count, per the spec, of actual transitions in a sequence of status updates:
those whose requested status differs from the status in place immediately
before them. Stated from the words of the claim, for comparison with the history
rows the trigger inserts. -/
def countActualTransitions : TaskStatus → List StatusUpdate → Nat
  | _, [] => 0
  | s, u :: us =>
    (if u.newStatus = s then 0 else 1) + countActualTransitions u.newStatus us

/-- A sample task row for the concrete checks below. -/
def sampleTask (st : TaskStatus) (ca : Option Int)
    (start dl created : Int) : Task :=
  { id := 1, title := "t", description := "", assigned_to := 2,
    assigned_by := 1, status := st, start_date := start, deadline_date := dl,
    completed_at := ca, created_at := created }

/-- A sample active employee profile (id 2, auth uid 20). -/
def empProfile : Profile :=
  { id := 2, user_id := 20, username := "test", full_name := "Test Employee",
    role := Role.employee, is_active := true }

/-- A sample inactive employee profile (id 7, auth uid 70). -/
def inactiveEmp : Profile :=
  { id := 7, user_id := 70, username := "former", full_name := "Former Hire",
    role := Role.employee, is_active := false }

/-- The insert row `handleSubmit` produces for the concrete creation used in
the checks below. -/
def sampleInsert : TaskInsert :=
  { title := "Report", description := "", assigned_to := 7, assigned_by := 1,
    start_date := 0, deadline_date := 5, status := TaskStatus.not_started }

-- Basic facts about one update, shared by several claims below.

theorem updateTaskStatus_fst_status (t : Task) (s : TaskStatus)
    (cn sn : Int) (a : Nat) : (updateTaskStatus t s cn sn a).1.status = s := by
  unfold updateTaskStatus log_task_status_change
  by_cases h : t.status = s
  · simp [h]
  · simp only [if_pos h]
    split <;> rfl

theorem updateTaskStatus_snd_of_eq (t : Task) (s : TaskStatus)
    (cn sn : Int) (a : Nat) (h : t.status = s) :
    (updateTaskStatus t s cn sn a).2 = none := by
  unfold updateTaskStatus log_task_status_change
  simp [h]

theorem updateTaskStatus_snd_of_ne (t : Task) (s : TaskStatus)
    (cn sn : Int) (a : Nat) (h : t.status ≠ s) :
    (updateTaskStatus t s cn sn a).2 =
      some { task_id := t.id, old_status := some t.status, new_status := s,
             changed_by := a, changed_at := sn } := by
  unfold updateTaskStatus log_task_status_change
  simp [h]

theorem updateTaskStatus_fst_completed_at (t : Task) (s : TaskStatus)
    (cn sn : Int) (a : Nat) :
    (updateTaskStatus t s cn sn a).1.completed_at =
      if s = TaskStatus.finished then
        some (if t.status = s then cn else sn)
      else none := by
  unfold updateTaskStatus log_task_status_change
  by_cases h : t.status = s
  · simp [h]
  · simp only [if_pos h]
    split <;> simp [h]

/-- C1: after every `updateTaskStatus` call the stored task record has
`completed_at` is non-null exactly when its status is `finished`; a call
that transitions into `finished` leaves a timestamp, and a call requesting
`not_started` or `in_progress` leaves `completed_at` null. -/
theorem completed_at_iff_finished_after_update (t : Task) (s : TaskStatus)
    (cn sn : Int) (a : Nat) :
    ((updateTaskStatus t s cn sn a).1.completed_at ≠ none ↔
        (updateTaskStatus t s cn sn a).1.status = TaskStatus.finished)
    ∧ (s = TaskStatus.finished →
        ∃ ts, (updateTaskStatus t s cn sn a).1.completed_at = some ts)
    ∧ ((s = TaskStatus.not_started ∨ s = TaskStatus.in_progress) →
        (updateTaskStatus t s cn sn a).1.completed_at = none) := by
  refine ⟨?_, ?_, ?_⟩
  · rw [updateTaskStatus_fst_completed_at, updateTaskStatus_fst_status]
    by_cases hs : s = TaskStatus.finished <;> simp [hs]
  · intro hs
    rw [updateTaskStatus_fst_completed_at]
    simp [hs]
  · intro hs
    rw [updateTaskStatus_fst_completed_at]
    rcases hs with h | h <;> subst h <;> simp

/-- C1 witness: a concrete `not_started → finished` call stores a
timestamp, and a concrete `not_started → in_progress` call stores null. -/
theorem completed_at_iff_finished_after_update_witness :
    (∃ ts, (updateTaskStatus (sampleTask TaskStatus.not_started none 0 10 0)
        TaskStatus.finished 3 4 9).1.completed_at = some ts) ∧
    (updateTaskStatus (sampleTask TaskStatus.not_started none 0 10 0)
        TaskStatus.in_progress 3 4 9).1.completed_at = none :=
  ⟨(completed_at_iff_finished_after_update
      (sampleTask TaskStatus.not_started none 0 10 0)
      TaskStatus.finished 3 4 9).2.1 rfl,
   (completed_at_iff_finished_after_update
      (sampleTask TaskStatus.not_started none 0 10 0)
      TaskStatus.in_progress 3 4 9).2.2 (Or.inr rfl)⟩

/-- C3 counterexample: a `finished → finished` call on a task whose stored
`completed_at` is 5, with client clock 7, inserts no history row but
overwrites `completed_at` with 7 — the condition "completed_at unchanged"
fails at this input. -/
theorem same_status_update_changes_completed_at :
    (updateTaskStatus (sampleTask TaskStatus.finished (some 5) 0 10 0)
        TaskStatus.finished 7 8 9).2 = none ∧
    (sampleTask TaskStatus.finished (some 5) 0 10 0).completed_at = some 5 ∧
    (updateTaskStatus (sampleTask TaskStatus.finished (some 5) 0 10 0)
        TaskStatus.finished 7 8 9).1.completed_at = some 7 :=
  ⟨rfl, rfl, rfl⟩

/-- C3 (amended): a same-status `updateTaskStatus` call inserts no history
row, and stores `completed_at` equal to the client-supplied current time
when the status is `finished` and null otherwise — so a
`finished → finished` call rewrites the completion timestamp instead of
leaving it unchanged. -/
theorem same_status_update_no_entry (t : Task) (s : TaskStatus)
    (cn sn : Int) (a : Nat) (h : t.status = s) :
    (updateTaskStatus t s cn sn a).2 = none ∧
    (updateTaskStatus t s cn sn a).1.completed_at =
      (if s = TaskStatus.finished then some cn else none) :=
  ⟨updateTaskStatus_snd_of_eq t s cn sn a h, by
    rw [updateTaskStatus_fst_completed_at]
    by_cases hs : s = TaskStatus.finished <;> simp [hs, h]⟩

/-- C3 witness: the amended statement at a concrete `finished → finished`
input. -/
theorem same_status_update_no_entry_witness :
    (updateTaskStatus (sampleTask TaskStatus.finished (some 5) 0 10 0)
        TaskStatus.finished 7 8 9).2 = none ∧
    (updateTaskStatus (sampleTask TaskStatus.finished (some 5) 0 10 0)
        TaskStatus.finished 7 8 9).1.completed_at =
      (if TaskStatus.finished = TaskStatus.finished then some (7 : Int)
       else none) :=
  same_status_update_no_entry (sampleTask TaskStatus.finished (some 5) 0 10 0)
    TaskStatus.finished 7 8 9 rfl

/-- C4: over any sequence of `updateTaskStatus` calls against one stored
task row, the number of history rows inserted equals the number of actual
transitions — calls whose requested status differs from the status stored
immediately before them; a same-status call inserts nothing. -/
theorem history_length_eq_actual_transitions (t : Task)
    (us : List StatusUpdate) :
    (runUpdates t us).2.length = countActualTransitions t.status us := by
  induction us generalizing t with
  | nil => rfl
  | cons u us ih =>
    have hst := updateTaskStatus_fst_status t u.newStatus u.clientNow
      u.serverNow u.actor_profile
    by_cases h : u.newStatus = t.status
    · have h2 := updateTaskStatus_snd_of_eq t u.newStatus u.clientNow
        u.serverNow u.actor_profile h.symm
      simp only [runUpdates, List.length_append, h2, Option.toList_none,
        List.length_nil, ih, hst, countActualTransitions, if_pos h]
    · have h2 := updateTaskStatus_snd_of_ne t u.newStatus u.clientNow
        u.serverNow u.actor_profile (fun he => h he.symm)
      simp only [runUpdates, List.length_append, h2, Option.toList_some,
        List.length_cons, List.length_nil, ih, hst, countActualTransitions,
        if_neg h]

/-- C5 counterexample: the very first history row of a task created in the
default `not_started` state records `old_status = some not_started`, not
SQL NULL — `tasks.status` is `NOT NULL`, so `OLD.status` in the trigger is
never null. -/
theorem first_history_entry_not_null_cex :
    (runUpdates (sampleTask TaskStatus.not_started none 0 10 0)
        [{ newStatus := TaskStatus.in_progress, clientNow := 2,
           serverNow := 3, actor_profile := 9 }]).2 =
      [{ task_id := 1, old_status := some TaskStatus.not_started,
         new_status := TaskStatus.in_progress, changed_by := 9,
         changed_at := 3 }] ∧
    some TaskStatus.not_started ≠ (none : Option TaskStatus) :=
  ⟨rfl, fun h => Option.noConfusion h⟩

/-- C5 (amended): the first history row recorded for a task carries
`old_status = some s` where `s` is the stored status of the task before the
sequence of updates (`not_started` for a freshly created task); it is never
null. -/
theorem first_history_entry_old_status (t : Task) (us : List StatusUpdate)
    (e : HistoryEntry) (rest : List HistoryEntry)
    (h : (runUpdates t us).2 = e :: rest) :
    e.old_status = some t.status := by
  induction us generalizing t rest with
  | nil => simp [runUpdates] at h
  | cons u us ih =>
    by_cases hs : u.newStatus = t.status
    · have h2 := updateTaskStatus_snd_of_eq t u.newStatus u.clientNow
        u.serverNow u.actor_profile hs.symm
      rw [runUpdates] at h
      rw [h2] at h
      simp only [Option.toList_none, List.nil_append] at h
      have hrec := ih _ _ h
      rw [updateTaskStatus_fst_status] at hrec
      rw [hrec, hs]
    · have h2 := updateTaskStatus_snd_of_ne t u.newStatus u.clientNow
        u.serverNow u.actor_profile (fun he => hs he.symm)
      rw [runUpdates] at h
      rw [h2] at h
      simp only [Option.toList_some, List.cons_append, List.cons.injEq] at h
      rw [← h.1]

/-- C5 witness: the amended statement at a concrete one-update sequence. -/
theorem first_history_entry_old_status_witness :
    ({ task_id := 1, old_status := some TaskStatus.not_started,
       new_status := TaskStatus.in_progress, changed_by := 9,
       changed_at := 3 } : HistoryEntry).old_status =
      some (sampleTask TaskStatus.not_started none 0 10 0).status :=
  first_history_entry_old_status
    (sampleTask TaskStatus.not_started none 0 10 0)
    [{ newStatus := TaskStatus.in_progress, clientNow := 2, serverNow := 3,
       actor_profile := 9 }]
    { task_id := 1, old_status := some TaskStatus.not_started,
      new_status := TaskStatus.in_progress, changed_by := 9,
      changed_at := 3 }
    [] rfl

/-- C2 (code-bug evidence): the RLS policy "Managers can update tasks or
employees can update their own status" admits an UPDATE by the assigned
employee (uid 20, profile 2, not a manager) that rewrites the start
date, deadline date and assigner — its USING clause tests row ownership
only, it has no WITH CHECK and no condition on which columns change, so the
restriction to the status field announced by the name of the policy and by
the spec is not enforced. -/
theorem employee_can_update_own_dates :
    tasks_update_allowed [empProfile] 20
      (sampleTask TaskStatus.not_started none 0 10 0)
      { sampleTask TaskStatus.not_started none 0 10 0 with
          start_date := 50, deadline_date := 100, assigned_by := 7 } = true ∧
    is_manager_uid [empProfile] 20 = false ∧
    ({ sampleTask TaskStatus.not_started none 0 10 0 with
        start_date := 50, deadline_date := 100,
        assigned_by := 7 } : Task).deadline_date ≠
      (sampleTask TaskStatus.not_started none 0 10 0).deadline_date := by
  refine ⟨rfl, rfl, ?_⟩
  decide

/-- C8 counterexample: an assignee that is an existing but inactive employee
profile is accepted — `handleSubmit` issues the insert even though the
assignee does not resolve to an active employee profile, so no
ValidationError occurs at this input. -/
theorem createTask_accepts_inactive_assignee :
    resolves_active_employee [inactiveEmp] 7 = false ∧
    handleSubmit "Report" "" (some 7) (some 0) (some 5) 1 =
      some sampleInsert :=
  ⟨rfl, rfl⟩

/-- C8 (amended): `handleSubmit` rejects — attempting no insert — exactly
when a required field is missing (empty title, no assignee, no start date,
no deadline date) or when the start date is after the deadline date; whether
the assignee resolves to an active employee profile is never validated. -/
theorem createTask_rejects_iff (title descr : String) (a : Option Nat)
    (s d : Option Int) (assigner : Nat) :
    handleSubmit title descr a s d assigner = none ↔
      (title = "" ∨ a = none ∨ s = none ∨ d = none ∨
        (∃ sv dv, s = some sv ∧ d = some dv ∧ sv > dv)) := by
  rcases a with _ | av <;> rcases s with _ | sv <;> rcases d with _ | dv <;>
    simp [handleSubmit]
  by_cases ht : title = "" <;> by_cases hsd : sv > dv <;> simp [ht, hsd]

/-- C9 counterexample: on a store holding a task with the earlier deadline
but the earlier creation time and one with the later deadline but the later
creation time, the manager read path (ordered by `created_at` descending)
returns the later deadline first — the default order is not deadline
ascending for every caller. -/
theorem manager_list_not_deadline_sorted :
    fetchTasksManager
        [sampleTask TaskStatus.not_started none 0 5 1,
         { sampleTask TaskStatus.not_started none 0 10 2 with id := 2 }] =
      [{ sampleTask TaskStatus.not_started none 0 10 2 with id := 2 },
       sampleTask TaskStatus.not_started none 0 5 1] ∧
    ¬ List.Sorted deadline_asc
        (fetchTasksManager
          [sampleTask TaskStatus.not_started none 0 5 1,
           { sampleTask TaskStatus.not_started none 0 10 2 with
               id := 2 }]) := by
  constructor
  · rfl
  · decide

/-- C9 (amended): the employee read path returns its rows ordered by
deadline date ascending, while the manager read path returns all rows
ordered by creation time descending. -/
theorem fetch_tasks_order (db : List Task) (pid : Nat) :
    List.Sorted deadline_asc (fetchTasksEmployee db pid) ∧
    List.Sorted created_desc (fetchTasksManager db) :=
  ⟨List.sorted_insertionSort deadline_asc
      (db.filter fun t => decide (t.assigned_to = pid)),
    List.sorted_insertionSort created_desc db⟩

/-- C10: every row created through the insert in `handleSubmit` has status
`not_started` (set explicitly by the code, never from caller input) and a
null `completed_at` (the column is absent from the payload, so the database
default NULL applies). -/
theorem created_task_defaults (title descr : String) (a : Option Nat)
    (s d : Option Int) (assigner : Nat) (row : TaskInsert) (newId : Nat)
    (now : Int) (h : handleSubmit title descr a s d assigner = some row) :
    (insertTask row newId now).status = TaskStatus.not_started ∧
    (insertTask row newId now).completed_at = none := by
  refine ⟨?_, rfl⟩
  rcases a with _ | av
  · simp [handleSubmit] at h
  rcases s with _ | sv
  · simp [handleSubmit] at h
  rcases d with _ | dv
  · simp [handleSubmit] at h
  simp only [handleSubmit] at h
  split at h
  · exact Option.noConfusion h
  · split at h
    · exact Option.noConfusion h
    · have hr := Option.some.inj h
      subst hr
      rfl

theorem completionRate_shape (l : List Task) :
    (if l.length > 0 then
        jsRound
          (((l.filter fun t =>
              decide (t.status = TaskStatus.finished)).length : ℚ) /
            (l.length : ℚ) * 100)
      else 0) = completionRateSpec l := by
  rcases l with _ | ⟨t, ts⟩
  · rfl
  · simp only [completionRateSpec]
    rw [if_pos (show 0 < (t :: ts).length by simp)]
    rw [if_neg (show ¬t :: ts = [] by simp)]
    congr 1
    ring

/-- C6: the completion rate computed by `getTaskStats` — and the percentage
computed by `getEmployeeProgress` over the tasks assigned to an employee —
equals the round-half-up formula of the spec, is 0 on the empty set, 100 on two
finished tasks and 50 on one finished plus one not_started task. -/
theorem completionRate_matches_spec :
    (∀ tasks : List Task,
        (getTaskStats tasks).completionRate = completionRateSpec tasks) ∧
    (∀ (tasks : List Task) (eid : Nat),
        (getEmployeeProgress tasks eid).percentage =
          completionRateSpec
            (tasks.filter fun t => decide (t.assigned_to = eid))) ∧
    (getTaskStats []).completionRate = 0 ∧
    (getTaskStats [sampleTask TaskStatus.finished (some 3) 0 10 0,
        sampleTask TaskStatus.finished (some 4) 0 10 0]).completionRate =
      100 ∧
    (getTaskStats [sampleTask TaskStatus.finished (some 3) 0 10 0,
        sampleTask TaskStatus.not_started none 0 10 0]).completionRate =
      50 := by
  refine ⟨?_, ?_, rfl, ?_, ?_⟩
  · intro tasks
    exact completionRate_shape tasks
  · intro tasks eid
    exact completionRate_shape
      (tasks.filter fun t => decide (t.assigned_to = eid))
  · simp [getTaskStats, sampleTask]
    norm_num [jsRound]
  · simp [getTaskStats, sampleTask]
    norm_num [jsRound]

theorem on_time_numer_eq (l : List Task) :
    (l.filter finished_with_ts).filter completed_on_time =
      l.filter fun t =>
        decide (t.status = TaskStatus.finished) && completed_on_time t := by
  rw [List.filter_filter]
  refine List.filter_congr fun t _ => ?_
  cases hc : t.completed_at <;>
    simp [finished_with_ts, completed_on_time, hc, Bool.and_comm]

theorem employee_filter_eq (tasks : List Task) (eid : Nat) :
    tasks.filter
        (fun t => decide (t.assigned_to = eid) && finished_with_ts t) =
      (tasks.filter fun t => decide (t.assigned_to = eid)).filter
        finished_with_ts := by
  rw [List.filter_filter]
  refine (List.filter_congr fun t _ => ?_).symm
  exact Bool.and_comm _ _

theorem filter_fin_ts_eq (l : List Task) :
    l.filter (fun t =>
      decide (t.status = TaskStatus.finished) && t.completed_at.isSome) =
      l.filter finished_with_ts := rfl

theorem onTimeRate_shape (l : List Task) :
    (if (l.filter finished_with_ts).length > 0 then
        jsRound
          ((((l.filter finished_with_ts).filter
              completed_on_time).length : ℚ) /
            ((l.filter finished_with_ts).length : ℚ) * 100)
      else 0) = onTimeRateSpec l := by
  simp only [onTimeRateSpec]
  rw [on_time_numer_eq, filter_fin_ts_eq]
  by_cases hD : (l.filter finished_with_ts).length = 0
  · rw [if_neg (by omega), if_pos ?hpos]
    case hpos => exact hD
  · rw [if_pos (by omega), if_neg ?hneg]
    case hneg => exact hD
    congr 1
    ring

/-- C7: the on-time rate computed by `getTaskStats` — and by
`getOnTimeCompletionRate` over the tasks assigned to an employee — equals
the round-half-up formula of the spec over finished tasks with a completion
timestamp; a single finished task completed at or before its deadline gives
100, one completed after its deadline gives 0, and the mixed pair gives
50. -/
theorem onTimeRate_matches_spec :
    (∀ tasks : List Task,
        (getTaskStats tasks).onTimeRate = onTimeRateSpec tasks) ∧
    (∀ (tasks : List Task) (eid : Nat),
        getOnTimeCompletionRate tasks eid =
          onTimeRateSpec
            (tasks.filter fun t => decide (t.assigned_to = eid))) ∧
    (getTaskStats
        [sampleTask TaskStatus.finished (some 3) 0 10 0]).onTimeRate =
      100 ∧
    (getTaskStats
        [sampleTask TaskStatus.finished (some 15) 0 10 0]).onTimeRate =
      0 ∧
    (getTaskStats [sampleTask TaskStatus.finished (some 3) 0 10 0,
        sampleTask TaskStatus.finished (some 15) 0 10 0]).onTimeRate =
      50 := by
  refine ⟨?_, ?_, ?_, ?_, ?_⟩
  · intro tasks
    exact onTimeRate_shape tasks
  · intro tasks eid
    have h := onTimeRate_shape
      (tasks.filter fun t => decide (t.assigned_to = eid))
    rw [← employee_filter_eq] at h
    exact h
  · simp [getTaskStats, sampleTask, finished_with_ts, completed_on_time]
    norm_num [jsRound]
  · simp [getTaskStats, sampleTask, finished_with_ts, completed_on_time]
    norm_num [jsRound]
  · simp [getTaskStats, sampleTask, finished_with_ts, completed_on_time]
    norm_num [jsRound]

/-- C10 witness: the statement at a concrete accepted creation. -/
theorem created_task_defaults_witness :
    (insertTask sampleInsert 3 4).status = TaskStatus.not_started ∧
    (insertTask sampleInsert 3 4).completed_at = none :=
  created_task_defaults "Report" "" (some 7) (some 0) (some 5) 1
    sampleInsert 3 4 rfl

end ET
